import Mathlib

namespace CallSanta

/-!
Shallow embedding of the Call Santa voice agent (src/main.py and
src/letter_support.py).  Bytes of a raw PCM buffer are modelled as natural
numbers, buffers as lists of bytes, and the asynchronous call controller as
a sequential state machine producing explicit event traces.  All
definitions are translated from the source; the one spec-modelled
component (the status reporter, absent from src/) is marked as such.
-/

/-! ## Audio frame chunker and pacer (main.py, elevenlabs_speak lines 127-142;
the same loop appears in speak_elf lines 238-251 and play_audio_file). -/

/-- Number of PCM samples per emitted frame: 20 ms at 24 kHz
(main.py line 128, `samples_per_frame = 480`). -/
def samplesPerFrame : Nat := 480

/-- Byte stride of one frame: mono 16-bit audio, two bytes per sample
(main.py line 130, `samples_per_frame * 2`). -/
def frameBytes : Nat := samplesPerFrame * 2

/-- Fuel-indexed chunking loop.  Models
`for i in range(0, len(raw_data), samples_per_frame * 2)` together with the
`if len(chunk) == samples_per_frame * 2` guard: a full-stride slice is
emitted, a trailing short slice is discarded.  The fuel only bounds the
recursion; `data.length` is always enough fuel because every step consumes
`frameBytes` (which is positive) bytes. -/
def chunkFramesAux : Nat → List Nat → List (List Nat)
  | 0, _ => []
  | fuel + 1, data =>
    if frameBytes ≤ data.length then
      data.take frameBytes :: chunkFramesAux fuel (data.drop frameBytes)
    else []

/-- Frame chunker: slices a raw PCM byte buffer into full `frameBytes`-sized
frames in buffer order, dropping the remainder (main.py lines 130-132). -/
def chunkFrames (data : List Nat) : List (List Nat) :=
  chunkFramesAux data.length data

/-- Observable actions of the frame-pacing loop: a frame handed to the audio
sink (`capture_frame`) or a suspension (`asyncio.sleep`), in milliseconds. -/
inductive PacerEvent where
  | deliver (frame : List Nat)
  | sleep (ms : Nat)
deriving DecidableEq

/-- Frame pacer component: deliver each frame then suspend 20 ms, and after
the sequence is exhausted suspend a fixed trailing 300 ms
(main.py lines 139-142: `capture_frame` / `sleep(0.02)` / `sleep(0.3)`). -/
def paceFrames : List (List Nat) → List PacerEvent
  | [] => [.sleep 300]
  | f :: rest => .deliver f :: .sleep 20 :: paceFrames rest

/-- Fuel-indexed version of the fused chunk-and-pace loop body of
`elevenlabs_speak` (main.py lines 130-140), emitting the sink/suspension
events of each full chunk. -/
def speakLoopAux : Nat → List Nat → List PacerEvent
  | 0, _ => []
  | fuel + 1, data =>
    if frameBytes ≤ data.length then
      PacerEvent.deliver (data.take frameBytes) :: PacerEvent.sleep 20 ::
        speakLoopAux fuel (data.drop frameBytes)
    else []

/-- Event trace of the streaming part of `elevenlabs_speak` applied to a raw
PCM buffer: the fused loop over full chunks followed by the trailing
`await asyncio.sleep(0.3)` (main.py lines 130-142). -/
def elevenlabs_speak_events (raw : List Nat) : List PacerEvent :=
  speakLoopAux raw.length raw ++ [.sleep 300]

/-- Recognises sink deliveries in a pacer trace. -/
def isDeliver : PacerEvent → Bool
  | .deliver _ => true
  | .sleep _ => false

/-- Recognises the 20 ms inter-frame suspensions in a pacer trace. -/
def isFrameGapSleep : PacerEvent → Bool
  | .sleep ms => ms == 20
  | .deliver _ => false

/-- Extracts the delivered frame from a pacer event, if any. -/
def frameOf : PacerEvent → Option (List Nat)
  | .deliver f => some f
  | .sleep _ => none

/-! ## Call controller state machine (main.py, class SantaAgent). -/

/-- Mutable per-session state of `SantaAgent` (main.py lines 159-176),
restricted to the plain-data fields.  The phase string ranges over
"elf" (greeting and activities), "santa" (conversation) and "ended". -/
structure SantaState where
  child_name : String
  gender : String
  relationship : String
  call_id : Option String
  phase : String
  activities_completed : List String
  gift_wishes : String
  call_active : Bool
deriving DecidableEq

/-- Field defaults set in `SantaAgent.__init__` (main.py lines 160-176). -/
def initialState : SantaState :=
  { child_name := "friend", gender := "child", relationship := "family",
    call_id := none, phase := "elf", activities_completed := [],
    gift_wishes := "", call_active := true }

/-- Outbound structured data messages published by `send_data`
(main.py lines 339, 362, 422). -/
inductive DataMsg where
  | activity_complete (activity : String)
  | phase_change (phase : String)
deriving DecidableEq

/-- Inbound data messages, after JSON decoding (main.py lines 309-343):
an "activity" message carrying an activity id, a "ready_for_santa"
message, any other message type (ignored), or an undecodable payload
(the except branch of `handle_data_message`). -/
inductive InMsg where
  | activity (activity : String)
  | ready_for_santa
  | other
  | malformed
deriving DecidableEq

/-- Observable actions of the controller: speech rendered with the Elf or
Santa voice, a bundled audio file played, a data message sent, or an
assignment to `self.phase`. -/
inductive Event where
  | speakElf (text : String)
  | speakSanta (text : String)
  | playFile (file : String)
  | send (msg : DataMsg)
  | setPhase (phase : String)
deriving DecidableEq

/-- Default narration used for an unrecognized activity id
(main.py line 319). -/
def genericNarration : String := "Wow, how fun!"

/-- The `ACTIVITY_CONFIG` table (main.py lines 65-78): narration text and
sound tag per known activity id. -/
def activityConfig (activity : String) : Option (String × String) :=
  if activity = "feed_reindeer" then
    some ("Ooh look! Dasher and Dancer are so hungry! Let\x27s give them some yummy carrots!",
      "reindeer")
  else if activity = "decorate_tree" then
    some ("Wow, let\x27s add some sparkly decorations to the Christmas tree! It\x27s going to be so pretty!",
      "sparkle")
  else if activity = "ring_bells" then
    some ("Let\x27s ring the magical sleigh bells! Santa loves the sound of jingle bells!",
      "bells")
  else none

/-- Sound-effect playback selected by the activity sound tag
(main.py lines 326-331); no tag or an unknown tag plays nothing. -/
def soundEvents (soundType : Option String) : List Event :=
  if soundType = some "reindeer" then [.playFile "reindeer-eating.mp3"]
  else if soundType = some "sparkle" then [.playFile "tree-sparkle.mp3"]
  else if soundType = some "bells" then [.playFile "bells-ringing.mp3"]
  else []

/-- Events performed by the "activity" branch of `handle_data_message`
(main.py lines 314-339): narrate, play the sound effect, then send the
acknowledgment.  The acknowledgment is sent on every submission. -/
def activityEvents (activity : String) : List Event :=
  let config := activityConfig activity
  let narration := (config.map Prod.fst).getD genericNarration
  let soundType := config.map Prod.snd
  [.speakElf narration] ++ soundEvents soundType ++
    [.send (.activity_complete activity)]

/-- The gendered term of address in Santa's greeting (main.py line 367):
`"boy" if self.gender == "boy" else "girl"`. -/
def childTerm (gender : String) : String :=
  if gender = "boy" then "boy" else "girl"

/-- Santa's greeting line (main.py lines 369-372). -/
def santaGreeting (child_name gender : String) : String :=
  "Ho Ho Ho! Hello " ++ child_name ++
    "! Merry Christmas! I\x27ve heard you\x27ve been a very good " ++
    childTerm gender ++ " this year!"

/-- The activity recap fragments, checked in fixed order
(main.py lines 378-384). -/
def activityMentions (completed : List String) : List String :=
  (if completed.contains "feed_reindeer" then ["feeding my reindeer"] else []) ++
  (if completed.contains "decorate_tree" then ["decorating the tree"] else []) ++
  (if completed.contains "ring_bells" then ["ringing the sleigh bells"] else [])

/-- The optional activity-recap line of the Santa conversation
(main.py lines 377-390). -/
def recapEvents (completed : List String) : List Event :=
  if completed ≠ [] then
    let mentions := activityMentions completed
    if mentions ≠ [] then
      [.speakSanta ("Jingle told me you had lots of fun " ++
        String.intercalate " and " mentions ++
        "! The elves and reindeer just love helpers like you!")]
    else []
  else []

/-- The `start_santa_conversation` method (main.py lines 348-424): sets the
phase to "santa", runs the fixed script, and finally sets the phase to
"ended".  The returned state reflects the final assignments; the event
list records every observable action, including both phase assignments. -/
def start_santa_conversation (st : SantaState) : SantaState × List Event :=
  ({ st with phase := "ended" },
    [Event.setPhase "santa",
     Event.speakElf ("Oh! " ++ st.child_name ++
       "! Santa is ready to talk to you now! Here he comes!"),
     Event.playFile "christmas-sleigh-bells-jingling-451852.mp3",
     Event.send (.phase_change "santa"),
     Event.speakSanta (santaGreeting st.child_name st.gender)] ++
    recapEvents st.activities_completed ++
    [Event.speakSanta "Now tell me, what would you like for Christmas?",
     Event.speakSanta ("Those are wonderful wishes! I will talk to your " ++
       st.relationship ++
       " to make sure everything is ready. Remember to be good and get lots of sleep on Christmas Eve!"),
     Event.speakSanta ("Merry Christmas " ++ st.child_name ++
       "! Ho Ho Ho! See you soon!"),
     Event.playFile "christmas-sleigh-bells-jingling-451852.mp3",
     Event.setPhase "ended",
     Event.send (.phase_change "ended")])

/-- The `handle_data_message` method (main.py lines 306-346).  An "activity"
message records the id once (`if activity not in self.activities_completed`)
and always acknowledges; "ready_for_santa" runs the Santa conversation with
no phase guard; other or undecodable messages do nothing. -/
def handle_data_message (st : SantaState) : InMsg → SantaState × List Event
  | .activity a =>
    ({ st with activities_completed :=
        if a ∈ st.activities_completed then st.activities_completed
        else st.activities_completed ++ [a] },
      activityEvents a)
  | .ready_for_santa => start_santa_conversation st
  | .other => (st, [])
  | .malformed => (st, [])

/-- Sequential processing of a list of inbound messages, accumulating the
event trace. -/
def runMessages : SantaState → List InMsg → SantaState × List Event
  | st, [] => (st, [])
  | st, m :: ms =>
    let r1 := handle_data_message st m
    let r2 := runMessages r1.1 ms
    (r2.1, r1.2 ++ r2.2)

/-- Extracts a phase assignment from an event, if any. -/
def phaseOf : Event → Option String
  | .setPhase p => some p
  | _ => none

/-- Recognises the acknowledgment message for a given activity id in an
event trace. -/
def isAck (activity : String) : Event → Bool
  | .send (.activity_complete b) => activity == b
  | _ => false

/-- The phase values assigned by `self.phase = ...` during a trace. -/
def assignedPhases (evs : List Event) : List String :=
  evs.filterMap phaseOf

/-- The sequence of values taken by `self.phase` while processing a message
list: the starting value followed by every assignment. -/
def phaseTrace (st : SantaState) (msgs : List InMsg) : List String :=
  st.phase :: assignedPhases (runMessages st msgs).2

/-- Boolean form of "the controller never revisits the greeting phase after
entering the conversation phase" on a phase sequence. -/
def greetingNeverRevisitedB (tr : List String) : Bool :=
  (List.range tr.length).all fun i =>
    (List.range tr.length).all fun j =>
      !(decide (i ≤ j)) || !(tr.getD i "" == "santa") || !(tr.getD j "" == "elf")

/-- Boolean form of "once the phase is ended it never changes again" on a
phase sequence. -/
def endedAbsorbingB (tr : List String) : Bool :=
  (List.range tr.length).all fun i =>
    (List.range tr.length).all fun j =>
      !(decide (i ≤ j)) || !(tr.getD i "" == "ended") || (tr.getD j "" == "ended")

/-- The phase-monotonicity property exactly as the claim states it. -/
def phaseMonotoneB (tr : List String) : Bool :=
  greetingNeverRevisitedB tr && endedAbsorbingB tr

/-! ## Call admission (main.py, request_handler lines 489-504). -/

/-- Room metadata fields consulted by `request_handler`; a `none` field
models a key absent from the JSON object. -/
structure JobMeta where
  agent_type : Option String
  agent_name : Option String
deriving DecidableEq

/-- Character-list version of `str.startswith`. -/
def startsWithChars : List Char → List Char → Bool
  | [], _ => true
  | _ :: _, [] => false
  | a :: as, b :: bs => (a == b) && startsWithChars as bs

/-- Character-list version of the Python substring test `needle in haystack`. -/
def occursIn (needle : List Char) : List Char → Bool
  | [] => needle.isEmpty
  | c :: rest => startsWithChars needle (c :: rest) || occursIn needle rest

/-- Python `str.lower()` restricted to the character-wise mapping. -/
def lowerStr (s : String) : String := ⟨s.data.map Char.toLower⟩

/-- The admission decision of `request_handler` (main.py lines 489-504).
`metadata = none` models absent or unparseable room metadata (the bare
except falls back to the empty dict). -/
def request_handler (metadata : Option JobMeta) (roomName : String) : Bool :=
  let md := metadata.getD ⟨none, none⟩
  let agent_type := lowerStr (md.agent_type.getD "")
  let agent_name := md.agent_name.getD ""
  (agent_type == "santa") || (agent_name == "call-santa") ||
    occursIn "santa".data (lowerStr roomName).data

/-- The admission condition following the words of the claim: agent_type
equals the fixed tag "santa", or agent_name matches the fixed identifier
"call-santa", or the room name contains that identifier ("call-santa") as a
substring case-insensitively.  Stated for comparison with
`request_handler`. -/
def claimAdmission (metadata : Option JobMeta) (roomName : String) : Bool :=
  let md := metadata.getD ⟨none, none⟩
  (md.agent_type.getD "" == "santa") || (md.agent_name.getD "" == "call-santa") ||
    occursIn "call-santa".data (lowerStr roomName).data

/-- The admission condition following the words of the amended claim: the
lowercased agent_type equals "santa", or agent_name equals "call-santa"
exactly, or the room name contains the tag "santa" as a substring
case-insensitively. -/
def amendedAdmission (metadata : Option JobMeta) (roomName : String) : Bool :=
  decide (lowerStr ((metadata.getD ⟨none, none⟩).agent_type.getD "") = "santa" ∨
    (metadata.getD ⟨none, none⟩).agent_name.getD "" = "call-santa" ∨
    occursIn "santa".data (lowerStr roomName).data = true)

/-! ## Session metadata resolution (main.py, parse_metadata lines 178-201). -/

/-- The fields `parse_metadata` reads from a decoded metadata object; a
`none` field models a key absent from the JSON object. -/
structure MetaDict where
  child_name : Option String
  gender : Option String
  relationship : Option String
  call_id : Option String
deriving DecidableEq

/-- One raw metadata string as seen by `parse_metadata`: falsy (empty),
non-empty but failing `json.loads`, or successfully decoded. -/
inductive RawMeta where
  | empty
  | malformed
  | parsed (m : MetaDict)
deriving DecidableEq

/-- The field assignments performed on a successfully decoded metadata
object (main.py lines 183-186 and 193-196): each child field keeps its
current value when the key is absent, while `call_id` is read with no
default. -/
def applyMeta (st : SantaState) (m : MetaDict) : SantaState :=
  { st with
    child_name := m.child_name.getD st.child_name,
    gender := m.gender.getD st.gender,
    relationship := m.relationship.getD st.relationship,
    call_id := m.call_id }

/-- The participant loop of `parse_metadata` (main.py lines 190-198): skip
falsy metadata, decode and return at the first non-empty one; a decoding
failure raises, aborting the whole method with the state unchanged. -/
def parseParticipants (st : SantaState) : List RawMeta → SantaState
  | [] => st
  | .empty :: rest => parseParticipants st rest
  | .malformed :: _ => st
  | .parsed m :: _ => applyMeta st m

/-- The `parse_metadata` method (main.py lines 178-201): non-empty room
metadata wins; otherwise the first non-empty participant metadata is used;
any decoding failure leaves the pre-set defaults in place. -/
def parse_metadata (st : SantaState) (room : RawMeta)
    (participants : List RawMeta) : SantaState :=
  match room with
  | .parsed m => applyMeta st m
  | .malformed => st
  | .empty => parseParticipants st participants

/-! ## Whole-session wait loop (main.py, SantaAgent.run lines 456-469). -/

/-- The 5-minute ceiling (main.py line 456, `timeout = 300`). -/
def timeoutSeconds : ℚ := 300

/-- Whether one iteration of the wait loop terminates the session, given the
loop condition and the two break checks, in source order
(main.py lines 459-469).  `elapsed` is the wall-clock time since the loop
started. -/
def wait_loop_exits (call_active : Bool) (phase : String) (elapsed : ℚ)
    (remote_participants : Nat) : Bool :=
  if !(call_active && !(phase == "ended")) then true
  else if timeoutSeconds < elapsed then true
  else if remote_participants = 0 then true
  else false

/-! ## Status reporter. -/

/-- Modelled from the spec: the call status values of the Status Reporter
(spec sections 4.5 and 6).  No status-update code is present under src/;
only the Supabase configuration constants exist (main.py lines 47-48). -/
inductive CallStatus where
  | active
  | completed
deriving DecidableEq

/-- Modelled from the spec: the payload of one status-update request,
`{room_name, status, gift_wishes}` (spec section 6), keyed by room name. -/
structure StatusRequest where
  room_name : String
  status : CallStatus
  gift_wishes : Option String
deriving DecidableEq

/-- Modelled from the spec: the Status Reporter operation (spec section
4.5), absent from src/.  It issues exactly one outbound request with the
payload `{room_name, status, gift_wishes}` through the backend transport
`deliver`; on failure the error is turned into a log line and swallowed; in
either case the session state is returned unchanged and no retry occurs.
The result is (session state, requests issued, optional log line). -/
def update_call_status (room_name : String) (status : CallStatus)
    (gift_wishes : Option String) (deliver : StatusRequest → Except String Unit)
    (st : SantaState) : SantaState × List StatusRequest × Option String :=
  let req : StatusRequest := ⟨room_name, status, gift_wishes⟩
  match deliver req with
  | .ok _ => (st, [req], none)
  | .error e => (st, [req], some ("Failed to update call status: " ++ e))

/-! ## Letter scripts (letter_support.py). -/

/-- The letter fields read by `generate_letter_scripts`
(letter_support.py lines 77-116); a `none` field models an absent key. -/
structure Letter where
  behavior : Option String
  niceThing : Option String
  wishes : Option (List String)
  snack : Option String
deriving DecidableEq

/-- The `format_behavior` table (letter_support.py lines 36-43). -/
def format_behavior (behavior : String) : String :=
  if behavior = "super_good" then "super duper good"
  else if behavior = "pretty_good" then "pretty good"
  else if behavior = "mostly_good" then "mostly good"
  else "good"

/-- The `format_snack` table (letter_support.py lines 46-53). -/
def format_snack (snack : String) : String :=
  if snack = "cookies" then "cookies"
  else if snack = "mince_pies" then "mince pies"
  else if snack = "carrots_for_reindeer" then "carrots for my reindeer"
  else "cookies"

/-- The wish filter of `generate_letter_scripts` (letter_support.py line
97): keep wishes that are truthy and truthy after stripping whitespace,
then take the first two. -/
def validWishes (wishes : List String) : List String :=
  (wishes.filter fun w => (w != "") && (w.trim != "")).take 2

/-- The santa_wishes script template (letter_support.py lines 106-109). -/
def wishScript (wishes_text : String) : String :=
  "Now, I see you would really love a " ++ wishes_text ++
    "! Those are wonderful wishes! I\x27ll see what I can do!"

/-- The `generate_letter_scripts` function (letter_support.py lines
56-122), returning the script entries in insertion order. -/
def generate_letter_scripts (letter : Letter) (child_name : String) :
    List (String × String) :=
  let elf_letter_notice :=
    "Oh wait! *magical chime* I just received a special letter! Is this from... " ++
      child_name ++ "? Let me make sure Santa sees this right away!"
  let behavior := format_behavior (letter.behavior.getD "good")
  let santa_letter_intro :=
    "I just read your wonderful letter, " ++ child_name ++
      "! You said you\x27ve been " ++ behavior ++ " this year!"
  let nice_thing := letter.niceThing.getD ""
  let santa_nice_thing :=
    if nice_thing ≠ "" then
      "I was so happy to hear that you " ++ nice_thing ++
        ". That was very kind of you, and I\x27ve added extra stars to your name on my Nice List!"
    else ""
  let wishes := letter.wishes.getD []
  let santa_wishes :=
    if wishes ≠ [] then
      let valid_wishes := validWishes wishes
      let wishes_text :=
        if 2 ≤ valid_wishes.length then
          valid_wishes.getD 0 "" ++ " and " ++ valid_wishes.getD 1 ""
        else if valid_wishes.length = 1 then valid_wishes.getD 0 ""
        else ""
      if wishes_text ≠ "" then wishScript wishes_text else ""
    else ""
  let snack := format_snack (letter.snack.getD "cookies")
  let santa_snack :=
    "And thank you for leaving out " ++ snack ++
      " for me! I do get very hungry on Christmas Eve!"
  [("elf_letter_notice", elf_letter_notice),
   ("santa_letter_intro", santa_letter_intro),
   ("santa_nice_thing", santa_nice_thing),
   ("santa_wishes", santa_wishes),
   ("santa_snack", santa_snack)]

/-! ## Frame chunker: properties (claim C2). -/

theorem chunkFramesAux_spec (fuel : Nat) :
    ∀ data : List Nat, data.length ≤ fuel →
      (chunkFramesAux fuel data).length = data.length / frameBytes ∧
      (∀ f ∈ chunkFramesAux fuel data, f.length = frameBytes) ∧
      (chunkFramesAux fuel data).flatten =
        data.take (frameBytes * (data.length / frameBytes)) := by
  induction fuel with
  | zero =>
    intro data h
    have h0 : data.length = 0 := Nat.le_zero.mp h
    refine ⟨by simp [chunkFramesAux, h0], ?_, by simp [chunkFramesAux, h0]⟩
    intro f hf
    simp [chunkFramesAux] at hf
  | succ fuel ih =>
    intro data h
    by_cases hb : frameBytes ≤ data.length
    · have hpos : 0 < frameBytes := by decide
      have hdrop : (data.drop frameBytes).length ≤ fuel := by
        simp only [List.length_drop]
        omega
      obtain ⟨ih1, ih2, ih3⟩ := ih (data.drop frameBytes) hdrop
      have hdiv : data.length / frameBytes =
          (data.length - frameBytes) / frameBytes + 1 :=
        Nat.div_eq_sub_div hpos hb
      refine ⟨?_, ?_, ?_⟩
      · simp only [chunkFramesAux, if_pos hb, List.length_cons, ih1,
          List.length_drop, hdiv]
      · intro f hf
        simp only [chunkFramesAux, if_pos hb, List.mem_cons] at hf
        rcases hf with hf | hf
        · subst hf
          simp [List.length_take, Nat.min_eq_left hb]
        · exact ih2 f hf
      · simp only [chunkFramesAux, if_pos hb, List.flatten_cons, ih3,
          List.length_drop, hdiv]
        have harith : frameBytes * ((data.length - frameBytes) / frameBytes + 1) =
            frameBytes + frameBytes * ((data.length - frameBytes) / frameBytes) := by
          ring
        rw [harith, List.take_add]
    · have hlt : data.length < frameBytes := Nat.lt_of_not_le hb
      refine ⟨?_, ?_, ?_⟩
      · simp only [chunkFramesAux, if_neg hb, List.length_nil,
          Nat.div_eq_of_lt hlt]
      · intro f hf
        simp only [chunkFramesAux, if_neg hb] at hf
        simp at hf
      · simp only [chunkFramesAux, if_neg hb, List.flatten_nil,
          Nat.div_eq_of_lt hlt, Nat.mul_zero, List.take_zero]

/-- C2: for every raw PCM byte buffer, the frame chunker emits exactly
floor(L/S) frames (S = 480 samples x 2 bytes = 960), each exactly S bytes,
in the original buffer order (their concatenation is the corresponding
prefix of the buffer, so the trailing L mod S bytes are discarded); an
empty buffer yields no frames. -/
theorem frame_chunker_spec (data : List Nat) :
    (chunkFrames data).length = data.length / frameBytes ∧
    ((chunkFrames data).all fun f => f.length == frameBytes) = true ∧
    (chunkFrames data).flatten =
      data.take (data.length - data.length % frameBytes) ∧
    chunkFrames [] = [] ∧
    frameBytes = samplesPerFrame * 2 ∧ frameBytes = 960 := by
  obtain ⟨h1, h2, h3⟩ := chunkFramesAux_spec data.length data (Nat.le_refl _)
  refine ⟨h1, ?_, ?_, rfl, rfl, rfl⟩
  · rw [List.all_eq_true]
    intro f hf
    simpa using h2 f hf
  · show (chunkFramesAux data.length data).flatten = _
    rw [h3]
    have := Nat.div_add_mod data.length frameBytes
    congr 1
    omega

/-! ## Frame pacer: properties (claim C8). -/

theorem speakLoopAux_eq (fuel : Nat) :
    ∀ data : List Nat, speakLoopAux fuel data =
      (chunkFramesAux fuel data).flatMap
        fun f => [PacerEvent.deliver f, PacerEvent.sleep 20] := by
  induction fuel with
  | zero => intro data; rfl
  | succ fuel ih =>
    intro data
    by_cases hb : frameBytes ≤ data.length
    · simp only [speakLoopAux, chunkFramesAux, if_pos hb, List.flatMap_cons, ih]
      rfl
    · simp only [speakLoopAux, chunkFramesAux, if_neg hb, List.flatMap_nil]

theorem paceFrames_eq (fs : List (List Nat)) :
    paceFrames fs =
      (fs.flatMap fun f => [PacerEvent.deliver f, PacerEvent.sleep 20]) ++
        [PacerEvent.sleep 300] := by
  induction fs with
  | nil => rfl
  | cons f rest ih => simp [paceFrames, ih]

theorem paceFrames_countP_deliver (fs : List (List Nat)) :
    (paceFrames fs).countP isDeliver = fs.length := by
  induction fs with
  | nil => rfl
  | cons f rest ih => simp [paceFrames, List.countP_cons, isDeliver, ih]

theorem paceFrames_countP_gap (fs : List (List Nat)) :
    (paceFrames fs).countP isFrameGapSleep = fs.length := by
  induction fs with
  | nil => rfl
  | cons f rest ih => simp [paceFrames, List.countP_cons, isFrameGapSleep, ih]

theorem paceFrames_filterMap (fs : List (List Nat)) :
    (paceFrames fs).filterMap frameOf = fs := by
  induction fs with
  | nil => rfl
  | cons f rest ih => simp [paceFrames, List.filterMap_cons, frameOf, ih]

/-- C8: the pacer over an input sequence of N frames issues exactly N sink
deliveries and exactly N inter-frame suspensions, with deliveries in strict
input order, a suspension after each delivery, and one fixed trailing pause
after the sequence is exhausted; and the event trace of the
`elevenlabs_speak` loop is exactly the pacer applied to the chunked
frames. -/
theorem frame_pacer_spec (raw : List Nat) (fs : List (List Nat)) :
    elevenlabs_speak_events raw = paceFrames (chunkFrames raw) ∧
    (paceFrames fs).countP isDeliver = fs.length ∧
    (paceFrames fs).countP isFrameGapSleep = fs.length ∧
    (paceFrames fs).filterMap frameOf = fs ∧
    paceFrames fs =
      (fs.flatMap fun f => [PacerEvent.deliver f, PacerEvent.sleep 20]) ++
        [PacerEvent.sleep 300] := by
  refine ⟨?_, paceFrames_countP_deliver fs, paceFrames_countP_gap fs,
    paceFrames_filterMap fs, paceFrames_eq fs⟩
  simp only [elevenlabs_speak_events, chunkFrames, speakLoopAux_eq,
    paceFrames_eq]

/-! ## Controller: phase assignments (claim C1) and activities (claim C3). -/

theorem filterMap_phaseOf_soundEvents (t : Option String) :
    (soundEvents t).filterMap phaseOf = [] := by
  unfold soundEvents
  split_ifs <;> rfl

theorem filterMap_phaseOf_activityEvents (a : String) :
    (activityEvents a).filterMap phaseOf = [] := by
  unfold activityEvents
  simp [List.filterMap_append, List.filterMap_cons, phaseOf,
    filterMap_phaseOf_soundEvents]

theorem filterMap_phaseOf_recap (c : List String) :
    (recapEvents c).filterMap phaseOf = [] := by
  simp only [recapEvents]
  split_ifs <;> rfl

theorem filterMap_phaseOf_ready (st : SantaState) :
    (handle_data_message st InMsg.ready_for_santa).2.filterMap phaseOf =
      ["santa", "ended"] := by
  simp [handle_data_message, start_santa_conversation, List.filterMap_append,
    List.filterMap_cons, phaseOf, filterMap_phaseOf_recap]

theorem handle_assigned (st : SantaState) (m : InMsg) :
    ∀ p ∈ (handle_data_message st m).2.filterMap phaseOf,
      p = "santa" ∨ p = "ended" := by
  intro p hp
  cases m with
  | activity a =>
    rw [show (handle_data_message st (.activity a)).2 = activityEvents a
        from rfl, filterMap_phaseOf_activityEvents] at hp
    simp at hp
  | ready_for_santa =>
    rw [filterMap_phaseOf_ready] at hp
    simp at hp
    tauto
  | other => simp [handle_data_message] at hp
  | malformed => simp [handle_data_message] at hp

theorem run_assigned (msgs : List InMsg) :
    ∀ st : SantaState, ∀ p ∈ (runMessages st msgs).2.filterMap phaseOf,
      p = "santa" ∨ p = "ended" := by
  induction msgs with
  | nil => intro st p hp; simp [runMessages] at hp
  | cons m ms ih =>
    intro st p hp
    simp only [runMessages, List.filterMap_append, List.mem_append] at hp
    rcases hp with hp | hp
    · exact handle_assigned st m p hp
    · exact ih _ p hp

/-- C1 counterexample: after two "ready_for_santa" messages the sequence of
values taken by the phase is elf, santa, ended, santa, ended — the phase
leaves "ended" again, so the claimed monotonicity property is false on this
concrete input. -/
theorem phase_monotonicity_counterexample :
    phaseTrace initialState [InMsg.ready_for_santa, InMsg.ready_for_santa] =
      ["elf", "santa", "ended", "santa", "ended"] ∧
    phaseMonotoneB (phaseTrace initialState
      [InMsg.ready_for_santa, InMsg.ready_for_santa]) = false := by
  constructor
  · rfl
  · rfl

/-- C1 amended: the controller never revisits the greeting phase ("elf")
after entering the conversation phase ("santa"), but "ended" is not
terminal: a later "ready_for_santa" message is handled with no phase
guard, so it re-assigns the phase to "santa" and then to "ended" again
(its final state is always "ended"). -/
theorem phase_transitions_amended (msgs : List InMsg) :
    greetingNeverRevisitedB (phaseTrace initialState msgs) = true ∧
    (∀ st : SantaState,
      (handle_data_message st InMsg.ready_for_santa).1.phase = "ended") ∧
    (∀ st : SantaState,
      (handle_data_message st InMsg.ready_for_santa).2.filterMap phaseOf =
        ["santa", "ended"]) := by
  refine ⟨?_, fun _ => rfl, fun st => filterMap_phaseOf_ready st⟩
  rw [greetingNeverRevisitedB, List.all_eq_true]
  intro i hi
  rw [List.all_eq_true]
  intro j hj
  rw [List.mem_range] at hi hj
  by_cases hij : i ≤ j
  · cases j with
    | zero =>
      have hi0 : i = 0 := Nat.le_zero.mp hij
      subst hi0
      have h0 : (phaseTrace initialState msgs).getD 0 "" = "elf" := rfl
      rw [h0]
      rfl
    | succ k =>
      have hlen : (phaseTrace initialState msgs).length =
          ((runMessages initialState msgs).2.filterMap phaseOf).length + 1 := by
        simp [phaseTrace, assignedPhases]
      have hk : k < ((runMessages initialState msgs).2.filterMap phaseOf).length := by
        omega
      have hstep : (phaseTrace initialState msgs).getD (k + 1) "" =
          ((runMessages initialState msgs).2.filterMap phaseOf).getD k "" := by
        simp [phaseTrace, assignedPhases]
      have hmem : (phaseTrace initialState msgs).getD (k + 1) "" ∈
          (runMessages initialState msgs).2.filterMap phaseOf := by
        rw [hstep, List.getD_eq_getElem _ _ hk]
        exact List.getElem_mem hk
      have hne : (phaseTrace initialState msgs).getD (k + 1) "" ≠ "elf" := by
        rcases run_assigned msgs initialState _ hmem with h | h <;>
          rw [h] <;> decide
      have hbeq : ((phaseTrace initialState msgs).getD (k + 1) "" == "elf") =
          false := beq_eq_false_iff_ne.mpr hne
      rw [hbeq]
      simp
  · simp [hij]

theorem countP_isAck_soundEvents (a : String) (t : Option String) :
    (soundEvents t).countP (isAck a) = 0 := by
  unfold soundEvents
  split_ifs <;> rfl

theorem countP_isAck_activityEvents (a : String) :
    (activityEvents a).countP (isAck a) = 1 := by
  unfold activityEvents
  simp [List.countP_append, List.countP_cons, isAck,
    countP_isAck_soundEvents]

theorem run_replicate_activity_mem (a : String) :
    ∀ (M : Nat) (st : SantaState), a ∈ st.activities_completed →
      (runMessages st (List.replicate M (InMsg.activity a))).1 = st ∧
      (runMessages st (List.replicate M (InMsg.activity a))).2.countP (isAck a) = M := by
  intro M
  induction M with
  | zero => intro st _; exact ⟨rfl, rfl⟩
  | succ M ih =>
    intro st hmem
    have hstep : handle_data_message st (InMsg.activity a) =
        (st, activityEvents a) := by
      simp [handle_data_message, if_pos hmem]
    obtain ⟨ih1, ih2⟩ := ih st hmem
    constructor
    · simp [List.replicate_succ, runMessages, hstep, ih1]
    · simp [List.replicate_succ, runMessages, hstep, List.countP_append,
        countP_isAck_activityEvents, ih2, Nat.add_comm]

/-- C3: submitting the same activity id N times (N >= 1) from the initial
state leaves exactly one entry for that id in `activities_completed`, yet
emits exactly N "activity_complete" acknowledgments, one per submission. -/
theorem activity_idempotent_ack_per_submission (a : String) (N : Nat)
    (h : 1 ≤ N) :
    (runMessages initialState
      (List.replicate N (InMsg.activity a))).1.activities_completed = [a] ∧
    (runMessages initialState
      (List.replicate N (InMsg.activity a))).2.countP (isAck a) = N := by
  obtain ⟨M, rfl⟩ : ∃ M, N = M + 1 := ⟨N - 1, by omega⟩
  have hstep : handle_data_message initialState (InMsg.activity a) =
      ({ initialState with activities_completed := [a] }, activityEvents a) := by
    simp [handle_data_message, initialState]
  obtain ⟨h1, h2⟩ := run_replicate_activity_mem a M
    { initialState with activities_completed := [a] } (by simp)
  constructor
  · simp [List.replicate_succ, runMessages, hstep, h1]
  · simp [List.replicate_succ, runMessages, hstep, List.countP_append,
      countP_isAck_activityEvents, h2, Nat.add_comm]

/-- Witness for C3 at a concrete activity id and N = 2. -/
theorem activity_idempotent_ack_per_submission_witness :
    (runMessages initialState
      (List.replicate 2 (InMsg.activity "feed_reindeer"))).1.activities_completed =
      ["feed_reindeer"] ∧
    (runMessages initialState
      (List.replicate 2 (InMsg.activity "feed_reindeer"))).2.countP
        (isAck "feed_reindeer") = 2 :=
  activity_idempotent_ack_per_submission "feed_reindeer" 2 (by norm_num)

/-! ## Call admission (claim C5). -/

/-- C5 counterexample: a room named "Santa1" with absent (or unparseable)
metadata is accepted by the code, because the room-name check looks for the
tag "santa"; the claim as stated (room name checked for the identifier
"call-santa") rejects it. -/
theorem call_admission_counterexample :
    request_handler none "Santa1" = true ∧
    claimAdmission none "Santa1" = false := by
  constructor
  · rfl
  · rfl

/-- C5 amended: the request is accepted if and only if the lowercased
agent_type equals "santa", or agent_name equals "call-santa" exactly, or
the room name contains the tag "santa" as a substring case-insensitively;
otherwise (including unparseable or absent metadata with a non-matching
room name) it is rejected. -/
theorem call_admission_amended (metadata : Option JobMeta) (roomName : String) :
    request_handler metadata roomName = amendedAdmission metadata roomName := by
  apply Bool.eq_iff_iff.mpr
  simp only [request_handler, amendedAdmission, Bool.or_eq_true, beq_iff_eq,
    decide_eq_true_eq]
  exact or_assoc

/-! ## Whole-session wait loop (claim C6). -/

/-- C6: for every phase and activity flag, once the elapsed wall-clock time
exceeds the 300-second ceiling, or the remote participant count is zero,
the wait loop of `SantaAgent.run` terminates the session. -/
theorem session_termination_forced (call_active : Bool) (phase : String)
    (elapsed : ℚ) (remote_participants : Nat)
    (h : timeoutSeconds < elapsed ∨ remote_participants = 0) :
    wait_loop_exits call_active phase elapsed remote_participants = true := by
  unfold wait_loop_exits
  split_ifs with h1 h2 h3 <;> simp_all

/-- Witness for C6 in the conversation phase, past the ceiling, with a
participant still present. -/
theorem session_termination_forced_witness :
    wait_loop_exits true "santa" 301 1 = true :=
  session_termination_forced true "santa" 301 1
    (Or.inl (by norm_num [timeoutSeconds]))

/-! ## Session metadata resolution (claim C7). -/

theorem parseParticipants_skip (st : SantaState) :
    ∀ pre rest : List RawMeta, (∀ r ∈ pre, r = RawMeta.empty) →
      parseParticipants st (pre ++ rest) = parseParticipants st rest := by
  intro pre
  induction pre with
  | nil => intro rest _; rfl
  | cons r pre ih =>
    intro rest hall
    have hr : r = RawMeta.empty := hall r (by simp)
    subst hr
    simp only [List.cons_append, parseParticipants]
    exact ih rest fun x hx => hall x (by simp [hx])

/-- C7: non-empty room metadata takes priority (the participant list is
never consulted); with empty room metadata the first participant with
non-empty metadata is used; whenever decoding fails (room level, or at the
first non-empty participant) the pre-set defaults are retained; with no
non-empty source the state is unchanged; and a decoded object with no keys
keeps every default except `call_id`, which is always overwritten. -/
theorem metadata_priority_defaults (st : SantaState) (m : MetaDict) :
    (∀ participants, parse_metadata st (RawMeta.parsed m) participants =
      applyMeta st m) ∧
    (∀ participants, parse_metadata st RawMeta.malformed participants = st) ∧
    (∀ pre post, (∀ r ∈ pre, r = RawMeta.empty) →
      parse_metadata st RawMeta.empty (pre ++ RawMeta.parsed m :: post) =
        applyMeta st m) ∧
    (∀ pre post, (∀ r ∈ pre, r = RawMeta.empty) →
      parse_metadata st RawMeta.empty (pre ++ RawMeta.malformed :: post) = st) ∧
    (∀ participants, (∀ r ∈ participants, r = RawMeta.empty) →
      parse_metadata st RawMeta.empty participants = st) ∧
    applyMeta st ⟨none, none, none, none⟩ = { st with call_id := none } := by
  refine ⟨fun _ => rfl, fun _ => rfl, ?_, ?_, ?_, rfl⟩
  · intro pre post hall
    show parseParticipants st (pre ++ RawMeta.parsed m :: post) = applyMeta st m
    rw [parseParticipants_skip st pre _ hall]
    rfl
  · intro pre post hall
    show parseParticipants st (pre ++ RawMeta.malformed :: post) = st
    rw [parseParticipants_skip st pre _ hall]
    rfl
  · intro parts hall
    show parseParticipants st parts = st
    have := parseParticipants_skip st parts [] hall
    simpa using this

/-- Witness for C7: empty room metadata, one empty participant followed by
one decoded participant. -/
theorem metadata_priority_defaults_witness :
    parse_metadata initialState RawMeta.empty
      [RawMeta.empty, RawMeta.parsed ⟨some "Mia", none, none, none⟩] =
      applyMeta initialState ⟨some "Mia", none, none, none⟩ :=
  (metadata_priority_defaults initialState
    ⟨some "Mia", none, none, none⟩).2.2.1 [RawMeta.empty] [] (by simp)

/-! ## Status reporter (claim C4, spec-modelled). -/

/-- C4: the status-update operation (modelled from the spec, since no such
code exists under src/) issues exactly one request whose payload carries
the room identifier, a status drawn from {active, completed}, and the
optional gift wishes; whatever the delivery outcome, the session state is
returned unchanged (failures are swallowed, and a single request means no
retry). -/
theorem status_reporter_spec (room_name : String) (status : CallStatus)
    (gift_wishes : Option String)
    (deliver : StatusRequest → Except String Unit) (st : SantaState) :
    (update_call_status room_name status gift_wishes deliver st).1 = st ∧
    (update_call_status room_name status gift_wishes deliver st).2.1 =
      [⟨room_name, status, gift_wishes⟩] ∧
    (status = CallStatus.active ∨ status = CallStatus.completed) := by
  rcases hd : deliver ⟨room_name, status, gift_wishes⟩ with _ | e <;>
    rcases status <;> simp [update_call_status, hd]

/-! ## Gendered greeting term (claim C9). -/

/-- C9: for every gender value other than exactly "boy" — including the
default "child" set in `__init__` — Santa's greeting line addresses the
child with the term "girl". -/
theorem gender_term_girl (gender child_name : String) (h : gender ≠ "boy") :
    childTerm gender = "girl" ∧
    childTerm initialState.gender = "girl" ∧
    santaGreeting child_name gender =
      "Ho Ho Ho! Hello " ++ child_name ++
        "! Merry Christmas! I\x27ve heard you\x27ve been a very good girl this year!" := by
  have h1 : childTerm gender = "girl" := by simp [childTerm, h]
  refine ⟨h1, rfl, ?_⟩
  rw [santaGreeting, h1]
  simp only [String.append_assoc]
  rfl

/-- Witness for C9 at the default gender and default name. -/
theorem gender_term_girl_witness :
    childTerm "child" = "girl" ∧
    childTerm initialState.gender = "girl" ∧
    santaGreeting "friend" "child" =
      "Ho Ho Ho! Hello " ++ "friend" ++
        "! Merry Christmas! I\x27ve heard you\x27ve been a very good girl this year!" :=
  gender_term_girl "child" "friend" (by decide)

/-! ## Letter scripts (claim C10). -/

theorem validWishes_mem_ne (ws : List String) (w : String)
    (hw : w ∈ validWishes ws) : w ≠ "" := by
  unfold validWishes at hw
  have hw2 := List.mem_of_mem_take hw
  have hp := (List.mem_filter.mp hw2).2
  simp only [Bool.and_eq_true, bne_iff_ne, ne_eq] at hp
  exact hp.1

theorem str_append_ne_left (a b : String) (h : a ≠ "") : a ++ b ≠ "" := by
  intro he
  apply h
  have hd : a.data ++ b.data = [] := by
    have := congrArg String.data he
    simpa [String.data_append] using this
  have ha : a.data = [] := (List.append_eq_nil.mp hd).1
  cases a with
  | mk l =>
    simp only at ha
    subst ha
    rfl

/-- C10: for every letter record the generated script mentions at most the
first two wishes that are non-empty after stripping whitespace, joined
with " and " when there are two; if the letter has no such wish the
santa_wishes entry is the empty string; and the returned script dictionary
always contains exactly the five script keys, in insertion order. -/
theorem letter_wishes_script_spec (letter : Letter) (child_name : String) :
    (generate_letter_scripts letter child_name).map Prod.fst =
      ["elf_letter_notice", "santa_letter_intro", "santa_nice_thing",
       "santa_wishes", "santa_snack"] ∧
    List.lookup "santa_wishes" (generate_letter_scripts letter child_name) =
      some (match validWishes (letter.wishes.getD []) with
        | [] => ""
        | [w] => wishScript w
        | w1 :: w2 :: _ => wishScript (w1 ++ " and " ++ w2)) := by
  constructor
  · rfl
  · rcases hv : validWishes (letter.wishes.getD []) with _ | ⟨w1, _ | ⟨w2, rest⟩⟩
    · by_cases hw : letter.wishes.getD [] = []
      · simp [generate_letter_scripts, List.lookup, hw]
      · simp [generate_letter_scripts, List.lookup, hw, hv]
    · have hw : letter.wishes.getD [] ≠ [] := by
        intro h0
        rw [h0] at hv
        exact absurd hv (by simp [validWishes])
      have hne : w1 ≠ "" := validWishes_mem_ne _ w1 (by rw [hv]; simp)
      simp [generate_letter_scripts, List.lookup, hw, hv, hne]
    · have hw : letter.wishes.getD [] ≠ [] := by
        intro h0
        rw [h0] at hv
        exact absurd hv (by simp [validWishes])
      have hne1 : w1 ≠ "" := validWishes_mem_ne _ w1 (by rw [hv]; simp)
      have hne : w1 ++ " and " ++ w2 ≠ "" :=
        str_append_ne_left _ _ (str_append_ne_left _ _ hne1)
      simp [generate_letter_scripts, List.lookup, hw, hv, hne]

end CallSanta
